import Mathlib

/-!
Verification of `distribution.py` (Similarity-Join-Analysis).

Shallow embedding of the similarity-join analysis pipeline:
encoding-robust CSV reading, per-column value tallies, the M-to-N
overlap score, the per-column comparison report, and the ranking driver.

Conventions of the embedding:
* A pandas `DataFrame` becomes a `Table`: a list of column names plus a
  list of rows, each row a function from column name to an optional cell
  (`none` models a missing/NaN cell).
* A `collections.Counter` built from a sequence of strings is modelled by
  the underlying sequence itself (a `List String`); its count for `v` is
  `List.count v`, its key set is the deduplicated list / `toFinset`.
* Python `float` division of ints is exact here, so scores live in `ℚ`.
* The CSV file written by `write_counts_to_csv` is modelled as the list
  of its rows, each row a list of cell strings.
* `pd.read_csv` and `chardet.detect` are I/O: they are abstracted as
  function parameters (`parse`, `chardet`); the control flow around them
  (sampling, candidate order, retry, terminal error) is embedded exactly.
-/

/-- Python's `str.capitalize()`: first character upper-cased, all
remaining characters lower-cased. -/
def pyCapitalize (s : String) : String :=
  match s.data with
  | [] => ""
  | c :: cs => String.mk (c.toUpper :: cs.map Char.toLower)

/-- Python's `str.split(',')` on the character list: splits at every
comma, keeping empty substrings, never trimming whitespace. -/
def splitCommaChars : List Char → List (List Char)
  | [] => [[]]
  | c :: cs =>
    if c = ',' then [] :: splitCommaChars cs
    else
      match splitCommaChars cs with
      | [] => [[c]]
      | h :: t => (c :: h) :: t

/-- Python's `str.split(',')` on strings. -/
def pySplitComma (s : String) : List String :=
  (splitCommaChars s.data).map String.mk

/-- `astype(str)` on one cell: a present cell is its text, a
missing/NaN cell renders as the literal string `"nan"`. -/
def pyStr : Option String → String
  | none => "nan"
  | some s => s

/-- A loaded table: its header (column names) and its rows.  A row maps
a column name to an optional cell value (`none` = missing/NaN). -/
structure Table where
  columns : List String
  rows : List (String → Option String)

/-- `detect_encoding(file_path)`: read the first 10,000 bytes of the
file and run statistical detection (`chardet.detect`, abstracted as the
function argument `chardet`) on that sample. -/
def detect_encoding (chardet : List UInt8 → String) (fileBytes : List UInt8) : String :=
  chardet (fileBytes.take 10000)

/-- The `for encoding in encodings_to_try: try ... except ...` loop of
`read_csv_with_encoding`: return the first successful parse, `none`
(the final `raise ValueError`) if every candidate fails.  Both
`UnicodeDecodeError` and any other exception advance to the next
candidate, so a failed attempt is simply `parse e = none`. -/
def try_encodings {α : Type} (parse : String → Option α) : List String → Option α
  | [] => none
  | e :: rest =>
    match parse e with
    | some df => some df
    | none => try_encodings parse rest

/-- `read_csv_with_encoding(file_path)`: build the candidate list
`['utf-8', 'iso-8859-1', 'windows-1252', 'latin1']`, insert the detected
encoding at position 0, and try the candidates in order.  `parse e`
abstracts `pd.read_csv(file_path, encoding=e, ...)`: `some tbl` on
success, `none` on any raised exception. -/
def read_csv_with_encoding {α : Type} (parse : String → Option α)
    (chardet : List UInt8 → String) (fileBytes : List UInt8) : Option α :=
  let encodings_to_try := ["utf-8", "iso-8859-1", "windows-1252", "latin1"]
  let detected_encoding := detect_encoding chardet fileBytes
  try_encodings parse (detected_encoding :: encodings_to_try)

/-- `count_occurrences(df, column)`:
`Counter(df[column].astype(str).str.split(',').explode())`.
Each cell is rendered to text (`pyStr`), split on commas, and the
substrings of all rows are concatenated; the resulting list is the
Counter's underlying multiset. -/
def count_occurrences (df : Table) (column : String) : List String :=
  (df.rows.map fun row => pySplitComma (pyStr (row column))).flatten

/-- `write_counts_to_csv(imdb_counts, omdb_counts, filename, column_name)`,
modelled as the list of rows written to the file: one header row
`[column_name, "IMDB Count", "OMDB Count"]`, then one row per value in
the union of the two Counters' key sets carrying both counts
(`Counter.get(value, 0)` is `List.count`, which is `0` for an absent
key).  Python iterates the union as a `set`, so row order is
unspecified; the embedding fixes the `dedup` order. -/
def write_counts_to_csv (imdb_counts omdb_counts : List String)
    (filename column_name : String) : List (List String) :=
  let header := [column_name, "IMDB Count", "OMDB Count"]
  let all_values := (imdb_counts ++ omdb_counts).dedup
  header :: all_values.map fun value =>
    [value, toString (imdb_counts.count value), toString (omdb_counts.count value)]

/-- `calculate_m_to_n_score(imdb_unique, omdb_unique, total_unique)`:
`overlap = imdb_unique + omdb_unique - total_unique`,
`max_overlap = min(imdb_unique, omdb_unique)`; return `0` when
`max_overlap == 0`, else `overlap / max_overlap` (exact division). -/
def calculate_m_to_n_score (imdb_unique omdb_unique total_unique : ℕ) : ℚ :=
  let overlap : ℚ := (imdb_unique : ℚ) + (omdb_unique : ℚ) - (total_unique : ℚ)
  let max_overlap : ℕ := min imdb_unique omdb_unique
  if max_overlap = 0 then 0
  else overlap / (max_overlap : ℚ)

/-- `calculate_m_to_n_score` instrumented with a flag recording whether
control reached the division `score = overlap / max_overlap` (`true`)
or returned through the `max_overlap == 0` guard first (`false`). -/
def calculate_m_to_n_score_instrumented (imdb_unique omdb_unique total_unique : ℕ) :
    ℚ × Bool :=
  let overlap : ℚ := (imdb_unique : ℚ) + (omdb_unique : ℚ) - (total_unique : ℚ)
  let max_overlap : ℕ := min imdb_unique omdb_unique
  if max_overlap = 0 then (0, false)
  else (overlap / (max_overlap : ℚ), true)

/-- `analyze_column(imdb_df, omdb_df, column)`: look the column up
verbatim in the IMDB table and capitalized in the OMDB table; if both
are present, tally both sides and return
`(imdb_unique, omdb_unique, total_unique, m_to_n_score)` where each
`*_unique` is the Counter's number of distinct keys; otherwise return
`(0, 0, 0, 0)`. -/
def analyze_column (imdb_df omdb_df : Table) (column : String) : ℕ × ℕ × ℕ × ℚ :=
  let imdb_column := column
  let omdb_column := pyCapitalize column
  if imdb_column ∈ imdb_df.columns ∧ omdb_column ∈ omdb_df.columns then
    let imdb_counts := count_occurrences imdb_df imdb_column
    let omdb_counts := count_occurrences omdb_df omdb_column
    let imdb_unique := imdb_counts.dedup.length
    let omdb_unique := omdb_counts.dedup.length
    let total_unique := (imdb_counts.toFinset ∪ omdb_counts.toFinset).card
    (imdb_unique, omdb_unique, total_unique,
      calculate_m_to_n_score imdb_unique omdb_unique total_unique)
  else
    (0, 0, 0, 0)

/-- The file writes performed by `analyze_column`: on the happy path it
writes exactly one file, `f'{column}_counts.csv'`, via
`write_counts_to_csv`; on the missing-column branch it writes nothing.
Each event is (filename, rows written). -/
def analyze_column_writes (imdb_df omdb_df : Table) (column : String) :
    List (String × List (List String)) :=
  if column ∈ imdb_df.columns ∧ pyCapitalize column ∈ omdb_df.columns then
    let imdb_counts := count_occurrences imdb_df column
    let omdb_counts := count_occurrences omdb_df (pyCapitalize column)
    let output_filename := column ++ "_counts.csv"
    [(output_filename,
      write_counts_to_csv imdb_counts omdb_counts output_filename (pyCapitalize column))]
  else
    []

/-- One element of the `join_candidates` list:
`(column, imdb_unique, omdb_unique, total_unique, m_to_n_score)`. -/
structure JoinCandidate where
  column : String
  imdbUnique : ℕ
  omdbUnique : ℕ
  totalUnique : ℕ
  score : ℚ
deriving DecidableEq

/-- Packaging of one `analyze_column` result as a `join_candidates`
entry. -/
def mkCandidate (column : String) (r : ℕ × ℕ × ℕ × ℚ) : JoinCandidate :=
  ⟨column, r.1, r.2.1, r.2.2.1, r.2.2.2⟩

/-- The fixed candidate list `potential_join_columns`. -/
def potential_join_columns : List String :=
  ["title", "director", "cast", "writer", "genre", "year"]

/-- One iteration of the driver loop: analyze the column and append it
to `join_candidates` iff `imdb_unique > 1 and omdb_unique > 1`. -/
def driver_step (imdb_df omdb_df : Table) (acc : List JoinCandidate)
    (column : String) : List JoinCandidate :=
  let r := analyze_column imdb_df omdb_df column
  if 1 < r.1 ∧ 1 < r.2.1 then acc ++ [mkCandidate column r] else acc

/-- The driver's `for column in potential_join_columns` loop, building
`join_candidates` (generalized over the column list). -/
def join_candidates_loop (imdb_df omdb_df : Table) (cols : List String) :
    List JoinCandidate :=
  cols.foldl (driver_step imdb_df omdb_df) []

/-- Descending-score order used by
`join_candidates.sort(key=lambda x: x[4], reverse=True)`. -/
def scoreGE (x y : JoinCandidate) : Prop := y.score ≤ x.score

instance : DecidableRel scoreGE := fun x y => inferInstanceAs (Decidable (y.score ≤ x.score))

instance : IsTotal JoinCandidate scoreGE := ⟨fun x y => le_total y.score x.score⟩

instance : IsTrans JoinCandidate scoreGE := ⟨fun _ _ _ h h' => le_trans h' h⟩

/-- The final ranked `join_candidates` list: collect the qualifying
candidates over `potential_join_columns`, then sort descending by
score (Python's stable sort is modelled by the stable
`insertionSort`). -/
def ranked_join_candidates (imdb_df omdb_df : Table) : List JoinCandidate :=
  List.insertionSort scoreGE (join_candidates_loop imdb_df omdb_df potential_join_columns)

/-! ## Claim C1: the score of two finite sets lies in [0, 1] -/

/-- Claim C1: For every pair of finite string sets `A` and `B`, calling
`calculate_m_to_n_score` with `distinctA = |A|`, `distinctB = |B|` and
`distinctUnion = |A ∪ B|` returns a score in the closed interval
`[0, 1]`. -/
theorem calculate_m_to_n_score_mem_unit_interval (A B : Finset String) :
    0 ≤ calculate_m_to_n_score A.card B.card (A ∪ B).card ∧
      calculate_m_to_n_score A.card B.card (A ∪ B).card ≤ 1 := by
  unfold calculate_m_to_n_score
  by_cases h : min A.card B.card = 0
  · simp [h]
  · rw [if_neg h]
    have hcards : (A ∩ B).card + (A ∪ B).card = A.card + B.card :=
      Finset.card_inter_add_card_union A B
    have hover : (A.card : ℚ) + (B.card : ℚ) - ((A ∪ B).card : ℚ) = ((A ∩ B).card : ℚ) := by
      have := congrArg (fun n : ℕ => (n : ℚ)) hcards
      push_cast at this
      linarith
    have hminpos : (0 : ℚ) < ((min A.card B.card : ℕ) : ℚ) :=
      Nat.cast_pos.mpr (Nat.pos_of_ne_zero h)
    have hinterle : (A ∩ B).card ≤ min A.card B.card :=
      le_min (Finset.card_le_card Finset.inter_subset_left)
        (Finset.card_le_card Finset.inter_subset_right)
    constructor
    · apply div_nonneg _ (le_of_lt hminpos)
      rw [hover]
      positivity
    · rw [div_le_one hminpos, hover]
      exact_mod_cast hinterle

/-! ## Claim C2: containment gives score 1 — fails on empty tallies -/

/-- Claim C2 counterexample: The empty key set is contained in `{"a"}`,
yet `calculate_m_to_n_score(|∅|, |{"a"}|, |∅ ∪ {"a"}|)` returns `0`,
not `1.0`: the claim as stated is false for an empty tally. -/
theorem calculate_m_to_n_score_subset_counterexample :
    (∅ : Finset String) ⊆ {"a"} ∧
      calculate_m_to_n_score (∅ : Finset String).card ({"a"} : Finset String).card
        ((∅ : Finset String) ∪ {"a"}).card ≠ 1 := by
  constructor
  · intro x hx
    exact absurd hx (Finset.not_mem_empty x)
  · intro h
    rw [show ((∅ : Finset String) ∪ {"a"}) = {"a"} by simp] at h
    simp [calculate_m_to_n_score] at h

/-- Claim C2 amended: For every pair of tallies whose key sets `A` and
`B` are both nonempty and satisfy `A ⊆ B` or `B ⊆ A`,
`calculate_m_to_n_score(|A|, |B|, |A ∪ B|)` returns `1.0`. -/
theorem calculate_m_to_n_score_subset_eq_one (A B : Finset String)
    (hA : A.Nonempty) (hB : B.Nonempty) (hsub : A ⊆ B ∨ B ⊆ A) :
    calculate_m_to_n_score A.card B.card (A ∪ B).card = 1 := by
  have hApos : 0 < A.card := Finset.card_pos.mpr hA
  have hBpos : 0 < B.card := Finset.card_pos.mpr hB
  unfold calculate_m_to_n_score
  rcases hsub with hsub | hsub
  · have hunion : A ∪ B = B := Finset.union_eq_right.mpr hsub
    have hle : A.card ≤ B.card := Finset.card_le_card hsub
    have hmin : min A.card B.card = A.card := min_eq_left hle
    rw [hunion, hmin, if_neg hApos.ne']
    have : (A.card : ℚ) + (B.card : ℚ) - (B.card : ℚ) = (A.card : ℚ) := by ring
    rw [this]
    exact div_self (by exact_mod_cast hApos.ne')
  · have hunion : A ∪ B = A := Finset.union_eq_left.mpr hsub
    have hle : B.card ≤ A.card := Finset.card_le_card hsub
    have hmin : min A.card B.card = B.card := min_eq_right hle
    rw [hunion, hmin, if_neg hBpos.ne']
    have : (A.card : ℚ) + (B.card : ℚ) - (A.card : ℚ) = (B.card : ℚ) := by ring
    rw [this]
    exact div_self (by exact_mod_cast hBpos.ne')

/-- Witness for the amended C2: `{"a"} ⊆ {"a", "b"}`, both nonempty,
and the score is `1`. -/
theorem calculate_m_to_n_score_subset_eq_one_witness :
    ({"a"} : Finset String).Nonempty ∧ ({"a", "b"} : Finset String).Nonempty ∧
      (({"a"} : Finset String) ⊆ {"a", "b"} ∨ ({"a", "b"} : Finset String) ⊆ {"a"}) ∧
      calculate_m_to_n_score ({"a"} : Finset String).card ({"a", "b"} : Finset String).card
        (({"a"} : Finset String) ∪ {"a", "b"}).card = 1 := by
  refine ⟨⟨"a", by decide⟩, ⟨"a", by decide⟩, Or.inl (by decide), ?_⟩
  exact calculate_m_to_n_score_subset_eq_one {"a"} {"a", "b"}
    ⟨"a", by decide⟩ ⟨"a", by decide⟩ (Or.inl (by decide))

/-! ## Claim C3: degenerate inputs return 0 without dividing -/

/-- Claim C3: Whenever `min(distinctA, distinctB) = 0` — in particular
whenever either tally is empty — `calculate_m_to_n_score` returns `0`,
and control never reaches the division (the instrumented flag is
`false`); the function is total. -/
theorem calculate_m_to_n_score_degenerate (a b u : ℕ) (h : min a b = 0) :
    calculate_m_to_n_score a b u = 0 ∧
      (calculate_m_to_n_score_instrumented a b u).2 = false := by
  constructor
  · unfold calculate_m_to_n_score
    rw [if_pos h]
  · unfold calculate_m_to_n_score_instrumented
    rw [if_pos h]

/-- Witness for C3 at `(0, 5, 7)`. -/
theorem calculate_m_to_n_score_degenerate_witness :
    min 0 5 = 0 ∧ calculate_m_to_n_score 0 5 7 = 0 ∧
      (calculate_m_to_n_score_instrumented 0 5 7).2 = false := by
  refine ⟨by decide, ?_, ?_⟩
  · exact (calculate_m_to_n_score_degenerate 0 5 7 (by decide)).1
  · exact (calculate_m_to_n_score_degenerate 0 5 7 (by decide)).2

/-! ## Claim C4: encoding candidate order, first success, terminal error -/

/-- The retry loop returns the first successful parse in list order. -/
theorem try_encodings_eq_head_filterMap {α : Type} (parse : String → Option α) :
    ∀ l : List String, try_encodings parse l = (l.filterMap parse).head? := by
  intro l
  induction l with
  | nil => rfl
  | cons e rest ih =>
    cases h : parse e with
    | none => simp [try_encodings, h, ih]
    | some df => simp [try_encodings, h]

/-- Claim C4: For every input file, the reader tries encodings in the
exact order [detected encoding, UTF-8, ISO-8859-1, Windows-1252,
Latin-1], returns the table produced by the first candidate that parses
successfully, and signals the terminal `ValueError` (`none`) if and
only if every candidate fails; the detection sample is the first
10,000 bytes of the file. -/
theorem read_csv_with_encoding_spec {α : Type} (parse : String → Option α)
    (chardet : List UInt8 → String) (fileBytes : List UInt8) :
    read_csv_with_encoding parse chardet fileBytes =
      (([chardet (fileBytes.take 10000), "utf-8", "iso-8859-1", "windows-1252",
          "latin1"].filterMap parse).head?) ∧
    (read_csv_with_encoding parse chardet fileBytes = none ↔
      ∀ e ∈ [chardet (fileBytes.take 10000), "utf-8", "iso-8859-1", "windows-1252",
          "latin1"], parse e = none) := by
  have hmain : read_csv_with_encoding parse chardet fileBytes =
      (([chardet (fileBytes.take 10000), "utf-8", "iso-8859-1", "windows-1252",
          "latin1"].filterMap parse).head?) := by
    unfold read_csv_with_encoding detect_encoding
    exact try_encodings_eq_head_filterMap parse _
  refine ⟨hmain, ?_⟩
  rw [hmain, List.head?_eq_none_iff, List.filterMap_eq_nil_iff]

/-- Concrete parse outcome used to witness C4: only `windows-1252`
succeeds. -/
def parse_windows_only : String → Option ℕ :=
  fun e => if e = "windows-1252" then some 42 else none

/-- Concrete detector used to witness C4. -/
def chardet_const_ascii : List UInt8 → String := fun _ => "ascii"

/-- Witness for C4: with a parse that succeeds only for
`windows-1252`, the reader falls through to it and succeeds. -/
theorem read_csv_with_encoding_spec_witness :
    read_csv_with_encoding parse_windows_only chardet_const_ascii [] = some 42 :=
  (read_csv_with_encoding_spec parse_windows_only chardet_const_ascii []).1.trans (by decide)

/-! ## Claim C5: tallying renders, splits on commas, counts substrings -/

/-- Claim C5: `count_occurrences` converts each cell to text (a
missing/null cell becomes the literal string `"nan"`), splits on commas
without trimming, and each resulting substring contributes one count:
prepending a row changes the count of any value `v` by exactly the
number of occurrences of `v` among the row's cell's comma-separated
substrings; a cell `"Action,Drama"` yields the substrings
`["Action", "Drama"]` — one count each to `"Action"` and `"Drama"` and
none to the whole string `"Action,Drama"`. -/
theorem count_occurrences_spec (df : Table) (column : String) (v : String)
    (row : String → Option String) :
    (count_occurrences ⟨df.columns, row :: df.rows⟩ column).count v =
        (pySplitComma (pyStr (row column))).count v +
          (count_occurrences df column).count v ∧
      pyStr none = "nan" ∧
      pySplitComma "Action,Drama" = ["Action", "Drama"] ∧
      (pySplitComma "Action,Drama").count "Action,Drama" = 0 := by
  refine ⟨?_, rfl, by decide, by decide⟩
  simp [count_occurrences, List.count_append]

/-- Concrete table used to witness C5. -/
def tbl_genre_empty : Table := ⟨["genre"], []⟩

/-- Concrete row used to witness C5: every cell reads "Action,Drama". -/
def row_action_drama : String → Option String := fun _ => some "Action,Drama"

/-- Witness for C5 at a concrete table, row and value. -/
theorem count_occurrences_spec_witness :
    (count_occurrences ⟨tbl_genre_empty.columns, row_action_drama :: tbl_genre_empty.rows⟩
        "genre").count "Action" =
      (pySplitComma (pyStr (row_action_drama "genre"))).count "Action" +
        (count_occurrences tbl_genre_empty "genre").count "Action" :=
  (count_occurrences_spec tbl_genre_empty "genre" "Action" row_action_drama).1

/-! ## Claim C6: shape and content of the comparison file -/

/-- Counting the image of `v` under an injective row-builder `g` in a
mapped list counts `v` in the original list. -/
theorem count_map_eq_count (g : String → List String)
    (hg : ∀ x y : String, g x = g y → x = y) (l : List String) (v : String) :
    (l.map g).count (g v) = l.count v := by
  induction l with
  | nil => rfl
  | cons a l ih =>
    by_cases h : a = v
    · subst h
      simp [List.count_cons, ih]
    · have hne : ¬ g a = g v := fun hc => h (hg a v hc)
      simp [List.count_cons, ih, h, hne]

/-- Claim C6: The comparison file consists of exactly one header row
`[capitalized column, "IMDB Count", "OMDB Count"]` followed by exactly
one row per distinct value in the union of the two tallies' key sets,
each row carrying that value's count on each side (0 when absent);
hence reading it back yields |union| + 1 rows. -/
theorem write_counts_to_csv_spec (a b : List String) (filename col : String) :
    (write_counts_to_csv a b filename (pyCapitalize col)).length =
        (a.toFinset ∪ b.toFinset).card + 1 ∧
      (write_counts_to_csv a b filename (pyCapitalize col)).head? =
        some [pyCapitalize col, "IMDB Count", "OMDB Count"] ∧
      (∀ v : String,
        (write_counts_to_csv a b filename (pyCapitalize col)).tail.count
            [v, toString (a.count v), toString (b.count v)] =
          if v ∈ a.toFinset ∪ b.toFinset then 1 else 0) ∧
      (∀ r ∈ (write_counts_to_csv a b filename (pyCapitalize col)).tail,
        ∃ v ∈ a.toFinset ∪ b.toFinset,
          r = [v, toString (a.count v), toString (b.count v)]) := by
  have hmem : ∀ v : String, v ∈ a.toFinset ∪ b.toFinset ↔ v ∈ (a ++ b).dedup := by
    intro v
    rw [← List.toFinset_append, List.mem_toFinset, List.mem_dedup]
  refine ⟨?_, rfl, ?_, ?_⟩
  · simp only [write_counts_to_csv, List.length_cons, List.length_map]
    rw [← List.toFinset_append, List.card_toFinset]
  · intro v
    simp only [write_counts_to_csv, List.tail_cons]
    have hc := count_map_eq_count
      (fun v : String => [v, toString (a.count v), toString (b.count v)])
      (fun x y h => by simpa using congrArg List.head? h) ((a ++ b).dedup) v
    have hgoal : List.count [v, toString (a.count v), toString (b.count v)]
        (((a ++ b).dedup).map fun value =>
          [value, toString (a.count value), toString (b.count value)]) =
        List.count v ((a ++ b).dedup) := hc
    rw [hgoal]
    by_cases hv : v ∈ a.toFinset ∪ b.toFinset
    · rw [if_pos hv]
      exact List.count_eq_one_of_mem (a ++ b).nodup_dedup ((hmem v).mp hv)
    · rw [if_neg hv]
      exact List.count_eq_zero.mpr (fun hc => hv ((hmem v).mpr hc))
  · intro r hr
    simp only [write_counts_to_csv, List.tail_cons, List.mem_map] at hr
    obtain ⟨v, hv, rfl⟩ := hr
    exact ⟨v, (hmem v).mpr hv, rfl⟩

/-- Witness for C6: concrete tallies `["a"]` and `["a", "b"]` give a
file of `|{"a"} ∪ {"a","b"}| + 1 = 3` rows. -/
theorem write_counts_to_csv_spec_witness :
    (write_counts_to_csv ["a"] ["a", "b"] "genre_counts.csv" (pyCapitalize "genre")).length =
      ((["a"] : List String).toFinset ∪ (["a", "b"] : List String).toFinset).card + 1 :=
  (write_counts_to_csv_spec ["a"] ["a", "b"] "genre_counts.csv" "genre").1

/-! ## Claims C7-C10: the ranking driver and the missing-column path -/

/-- Every element of the driver loop's accumulated `join_candidates`
either was already in the accumulator or was appended for some column
of the list after passing the `imdb_unique > 1 and omdb_unique > 1`
filter. -/
theorem mem_join_candidates_foldl (A B : Table) :
    ∀ (cols : List String) (acc : List JoinCandidate) (c : JoinCandidate),
      c ∈ cols.foldl (driver_step A B) acc →
      c ∈ acc ∨ ∃ col ∈ cols, c = mkCandidate col (analyze_column A B col) ∧
        1 < (analyze_column A B col).1 ∧ 1 < (analyze_column A B col).2.1 := by
  intro cols
  induction cols with
  | nil =>
    intro acc c h
    exact Or.inl h
  | cons col rest ih =>
    intro acc c h
    simp only [List.foldl_cons] at h
    rcases ih (driver_step A B acc col) c h with hacc | ⟨col', hcol', hrest⟩
    · simp only [driver_step] at hacc
      by_cases hq : 1 < (analyze_column A B col).1 ∧ 1 < (analyze_column A B col).2.1
      · rw [if_pos hq] at hacc
        rcases List.mem_append.mp hacc with h1 | h2
        · exact Or.inl h1
        · exact Or.inr ⟨col, List.mem_cons_self col rest,
            List.mem_singleton.mp h2, hq.1, hq.2⟩
      · rw [if_neg hq] at hacc
        exact Or.inl hacc
    · exact Or.inr ⟨col', List.mem_cons_of_mem col hcol', hrest⟩

/-- Claim C7: A column appears in `join_candidates` only if its
distinct-value count exceeds 1 on both sides; the invariant holds for
the loop over any column list (hence at every iteration) and is
preserved by the final sort, so no entry of the ranked list has ≤ 1
distinct value on either side. -/
theorem join_candidates_filter_invariant (A B : Table) (cols : List String)
    (c : JoinCandidate) :
    (c ∈ join_candidates_loop A B cols → 1 < c.imdbUnique ∧ 1 < c.omdbUnique) ∧
      (c ∈ ranked_join_candidates A B → 1 < c.imdbUnique ∧ 1 < c.omdbUnique) := by
  have main : ∀ cols' : List String, c ∈ join_candidates_loop A B cols' →
      1 < c.imdbUnique ∧ 1 < c.omdbUnique := by
    intro cols' h
    rcases mem_join_candidates_foldl A B cols' [] c h with h0 | ⟨col, _, hceq, h1, h2⟩
    · cases h0
    · rw [hceq]
      exact ⟨h1, h2⟩
  refine ⟨main cols, fun h => main potential_join_columns ?_⟩
  exact ((List.perm_insertionSort scoreGE _).mem_iff).mp h

/-- Concrete IMDB-side table for the driver witnesses: one `genre`
column with two distinct values. -/
def imdb_two_genres : Table := ⟨["genre"], [fun _ => some "x", fun _ => some "y"]⟩

/-- Concrete OMDB-side table for the driver witnesses: one `Genre`
column with the same two values. -/
def omdb_two_genres : Table := ⟨["Genre"], [fun _ => some "x", fun _ => some "y"]⟩

/-- Witness for C7: on concrete tables the `genre` candidate is in the
ranked list and indeed has more than one distinct value per side. -/
theorem join_candidates_filter_invariant_witness :
    mkCandidate "genre" (analyze_column imdb_two_genres omdb_two_genres "genre") ∈
        ranked_join_candidates imdb_two_genres omdb_two_genres ∧
      1 < (mkCandidate "genre"
          (analyze_column imdb_two_genres omdb_two_genres "genre")).imdbUnique ∧
        1 < (mkCandidate "genre"
          (analyze_column imdb_two_genres omdb_two_genres "genre")).omdbUnique := by
  have hranked : ranked_join_candidates imdb_two_genres omdb_two_genres =
      [mkCandidate "genre" (analyze_column imdb_two_genres omdb_two_genres "genre")] := rfl
  have hmem : mkCandidate "genre" (analyze_column imdb_two_genres omdb_two_genres "genre") ∈
      ranked_join_candidates imdb_two_genres omdb_two_genres := by
    rw [hranked]
    exact List.mem_singleton.mpr rfl
  exact ⟨hmem, (join_candidates_filter_invariant imdb_two_genres omdb_two_genres
    potential_join_columns _).2 hmem⟩

/-- Claim C8: The final `join_candidates` list is sorted in descending
order of overlap score: for every pair of adjacent entries, the earlier
entry's score is ≥ the later entry's score. -/
theorem ranked_join_candidates_sorted_desc (A B : Table) :
    (ranked_join_candidates A B).Chain' fun x y => y.score ≤ x.score := by
  have hs : List.Sorted scoreGE (ranked_join_candidates A B) :=
    List.sorted_insertionSort scoreGE _
  exact List.Pairwise.chain' hs

/-- Claim C9: If a column name is absent verbatim from the IMDB table's
columns or absent in capitalized form from the OMDB table's columns,
`analyze_column` returns `(0, 0, 0, 0)`, and that column never appears
in the final ranked candidate list. -/
theorem analyze_column_missing (A B : Table) (col : String)
    (h : col ∉ A.columns ∨ pyCapitalize col ∉ B.columns) :
    analyze_column A B col = (0, 0, 0, 0) ∧
      ∀ c ∈ ranked_join_candidates A B, c.column ≠ col := by
  have hcond : ¬ (col ∈ A.columns ∧ pyCapitalize col ∈ B.columns) := by
    rcases h with h | h <;> exact fun hc => h (by simp [hc.1, hc.2])
  have hzero : analyze_column A B col = (0, 0, 0, 0) := by
    simp only [analyze_column]
    rw [if_neg hcond]
  refine ⟨hzero, ?_⟩
  intro c hc hcol
  have hmem : c ∈ join_candidates_loop A B potential_join_columns :=
    ((List.perm_insertionSort scoreGE _).mem_iff).mp hc
  rcases mem_join_candidates_foldl A B potential_join_columns [] c hmem with
    h0 | ⟨col', _, hceq, h1, _⟩
  · cases h0
  · have hcol' : col' = col := by
      rw [hceq] at hcol
      exact hcol
    rw [hcol', hzero] at h1
    exact absurd h1 (by decide)

/-- Concrete IMDB-side table missing the `genre` column. -/
def imdb_title_only : Table := ⟨["title"], []⟩

/-- Concrete OMDB-side table missing the `Genre` column. -/
def omdb_title_only : Table := ⟨["Title"], []⟩

/-- Witness for C9: `genre` is absent from the IMDB table, and
`analyze_column` returns all zeros there. -/
theorem analyze_column_missing_witness :
    ("genre" ∉ imdb_title_only.columns ∨
        pyCapitalize "genre" ∉ omdb_title_only.columns) ∧
      analyze_column imdb_title_only omdb_title_only "genre" = (0, 0, 0, 0) :=
  ⟨Or.inl (by decide),
    (analyze_column_missing imdb_title_only omdb_title_only "genre"
      (Or.inl (by decide))).1⟩

/-- Claim C10: When `analyze_column` takes the missing-column branch it
performs no file write at all: its list of write events (filename,
rows) is empty, so no `<column>_counts.csv` file is created or
modified for that column. -/
theorem analyze_column_missing_no_write (A B : Table) (col : String)
    (h : ¬ (col ∈ A.columns ∧ pyCapitalize col ∈ B.columns)) :
    analyze_column_writes A B col = [] := by
  simp only [analyze_column_writes]
  rw [if_neg h]

/-- Witness for C10: with `genre` missing from the IMDB table, the
write-event list is empty. -/
theorem analyze_column_missing_no_write_witness :
    ¬ ("genre" ∈ imdb_title_only.columns ∧
        pyCapitalize "genre" ∈ omdb_title_only.columns) ∧
      analyze_column_writes imdb_title_only omdb_title_only "genre" = [] :=
  ⟨fun hc => by exact absurd hc.1 (by decide),
    analyze_column_missing_no_write imdb_title_only omdb_title_only "genre"
      (fun hc => by exact absurd hc.1 (by decide))⟩
